import Mathlib

/-!
Shallow embedding of the snapdragon-hackathon obstacle-detection system:
the decision engine (integration.py), the vision detection filter (vision.py),
the audio STT/TTS wrappers (audio.py), and the main polling loop (main.py).

External SDK calls (PyAudio, Vosk, pyttsx3, OpenCV, SNPE) are modelled by
their outcomes: `PyResult α` is either a returned value or a raised exception.
Python byte strings are lists of byte values, Python floats are rationals,
and a Python dict entry that may be absent is an `Option`.
-/

/-- Outcome of a call into an external SDK: either it returns a value or it
raises an exception that the wrapper code must handle. -/
inductive PyResult (α : Type) where
  | ok (a : α)
  | exn
deriving DecidableEq

/-- One detection record as built by `VisionProcessor.detect_objects`:
the Python dict `{'box': ..., 'class': ..., 'score': ...}`.  The `cls` field
is `none` when the dict lacks a `'class'` key (a malformed record), so that
`detection.get('class')` is modelled by the `Option` value directly. -/
structure Detection where
  box : List Rat
  cls : Option Int
  score : Rat
deriving DecidableEq

/-- Python `v in xs` where `v` is `detection.get('class')` (possibly `None`)
and `xs` is the configured list of integer obstacle class ids.
`None in xs` is `False` for a list of ints. -/
def pyMem (v : Option Int) (xs : List Int) : Bool :=
  match v with
  | some c => xs.contains c
  | none => false

/-- `DecisionEngine.process_inputs` (integration.py lines 22-45): returns the
fixed warning string iff any detection's `'class'` value is in the configured
obstacle class list, else the empty string.  `audio_text` is accepted but
unused by the rule, exactly as in the source.  The `try/except` in the source
cannot fire for dict-shaped records, so the model is the `any` test itself. -/
def process_inputs (obstacle_classes : List Int) (audio_text : String)
    (detection_results : List Detection) : String :=
  if detection_results.any (fun detection => pyMem detection.cls obstacle_classes) then
    "Warning: Obstacle ahead!"
  else
    ""

/-- The default obstacle class list `[1, 2, 3]` (integration.py line 19;
main.py line 15 passes the same list explicitly). -/
def defaultObstacleClasses : List Int := [1, 2, 3]

/-- `AudioProcessor.capture_audio` (audio.py lines 58-71): returns the bytes
read from the stream, or `b""` when `stream.read` raises. -/
def capture_audio (streamRead : PyResult (List Nat)) : List Nat :=
  match streamRead with
  | .ok data => data
  | .exn => []

/-- Model of the Vosk recognizer as seen by `process_stt`:
`acceptWaveform` is the outcome of `recognizer.AcceptWaveform(audio_data)`,
and `resultJson` is the outcome of `json.loads(recognizer.Result())`,
carrying `some t` when the parsed dict has `"text": t` and `none` when the
`"text"` key is absent. -/
structure RecognizerModel where
  acceptWaveform : List Nat → PyResult Bool
  resultJson : PyResult (Option String)

/-- `AudioProcessor.process_stt` (audio.py lines 73-98).  Returns the
recognized text together with a flag recording whether
`recognizer.AcceptWaveform` was invoked.  An empty chunk returns `""` at once;
any exception inside the `try` yields `""`; a non-final result yields `""`;
a final result yields `result.get("text", "")`. -/
def process_stt (rec : RecognizerModel) (audio_data : List Nat) : String × Bool :=
  if audio_data.isEmpty then
    ("", false)
  else
    match rec.acceptWaveform audio_data with
    | .exn => ("", true)
    | .ok false => ("", true)
    | .ok true =>
      match rec.resultJson with
      | .exn => ("", true)
      | .ok r => (r.getD "", true)

/-- `AudioProcessor.speak` (audio.py lines 100-116), modelled by the list of
utterances actually synthesized: empty text is a no-op, a successful
`engine.say`/`runAndWait` speaks the text, and a synthesis exception is
swallowed (nothing spoken, nothing raised). -/
def speak (text : String) (sayOutcome : PyResult Unit) : List String :=
  if text = "" then
    []
  else
    match sayOutcome with
    | .ok _ => [text]
    | .exn => []

/-- `VisionProcessor.capture_frame` (vision.py lines 50-62): `cap.read()`
returns `(ret, frame)`; on `not ret` the method returns `None`, else the
frame (whose pixel content the claims never inspect, hence `Unit`). -/
def capture_frame (ret : Bool) (frame : Unit) : Option Unit :=
  if !ret then none else some frame

/-- The dictionary returned by `snpe.run_inference` (vision.py lines 104-108):
three parallel arrays keyed `"detection_boxes"`, `"detection_classes"`,
`"detection_scores"`.  A missing key yields `[]` via `.get(key, [])`, which is
representable here as an empty field. -/
structure InferenceOutputs where
  detection_boxes : List (List Rat)
  detection_classes : List Rat
  detection_scores : List Rat
deriving DecidableEq

/-- Python `int()` applied to a float: truncation toward zero. -/
def pyInt (q : Rat) : Int :=
  if 0 ≤ q then ⌊q⌋ else ⌈q⌉

/-- The `for i in range(len(scores))` loop of `detect_objects`
(vision.py lines 110-118), walking the score list with its running index `i`.
`boxes[i]` and `classes[i]` are evaluated only when `scores[i] >=
score_threshold`; an out-of-range access is an `IndexError`, modelled by
`none` (the surrounding `except` then returns `[]`). -/
def detectLoop (boxes : List (List Rat)) (classes : List Rat) (score_threshold : Rat) :
    List Rat → Nat → Option (List Detection)
  | [], _ => some []
  | s :: rest, i =>
    if score_threshold ≤ s then
      match boxes.get? i, classes.get? i with
      | some b, some c =>
        match detectLoop boxes classes score_threshold rest (i + 1) with
        | some ds => some (⟨b, some (pyInt c), s⟩ :: ds)
        | none => none
      | _, _ => none
    else
      detectLoop boxes classes score_threshold rest (i + 1)

/-- `VisionProcessor.detect_objects` (vision.py lines 89-123).  `inference`
is the outcome of preprocessing plus `snpe.run_inference`; any exception
(there or from indexing inside the loop) is caught and `[]` returned.
The score threshold defaults to `0.5` at the Python call sites. -/
def detect_objects (inference : PyResult InferenceOutputs) (score_threshold : Rat) :
    List Detection :=
  match inference with
  | .exn => []
  | .ok outputs =>
    match detectLoop outputs.detection_boxes outputs.detection_classes score_threshold
        outputs.detection_scores 0 with
    | some ds => ds
    | none => []

/-- Modelled from the spec: the reference description of the filtered
detection list, "filters output detections to those with
`score >= scoreThreshold`", keeping index order and taking `box`, `class`
(coerced to int) and `score` from the same index of the parallel arrays. -/
def detectionsSpec (boxes : List (List Rat)) (classes : List Rat) (score_threshold : Rat)
    (scores : List Rat) (i : Nat) : List Detection :=
  (scores.enumFrom i).filterMap fun p =>
    if score_threshold ≤ p.2 then
      some ⟨boxes.getD p.1 [], some (pyInt (classes.getD p.1 0)), p.2⟩
    else
      none

/-- Observable actions of one pass of the main loop (main.py lines 18-46). -/
inductive Event where
  | captureAudio
  | stt
  | captureFrame
  | detect
  | speakCall (s : String)
  | sleep
  | closeAudio
  | closeVision
deriving DecidableEq

/-- The scripted external world for one loop iteration: the outcome of the
audio stream read, the recognizer's behavior, the camera's `ret` flag, and
the outcome of vision preprocessing/inference. -/
structure Env where
  streamRead : PyResult (List Nat)
  recognizer : RecognizerModel
  camRet : Bool
  inference : PyResult InferenceOutputs

/-- One iteration of the `while True` body in `main` (main.py lines 18-39),
as the sequence of observable events it performs: capture audio, run STT,
capture a frame; on a `None` frame, `continue` (which skips detection,
decision, speaking AND the `time.sleep(0.1)`); otherwise detect, decide,
speak if the warning is non-empty, then sleep 100 ms. -/
def iterationTrace (obstacle_classes : List Int) (env : Env) : List Event :=
  let audio_data := capture_audio env.streamRead
  let recognized_text := (process_stt env.recognizer audio_data).1
  match capture_frame env.camRet () with
  | none => [Event.captureAudio, Event.stt, Event.captureFrame]
  | some _ =>
    let detections := detect_objects env.inference (1 / 2)
    let warning_message := process_inputs obstacle_classes recognized_text detections
    [Event.captureAudio, Event.stt, Event.captureFrame, Event.detect] ++
      (if warning_message ≠ "" then [Event.speakCall warning_message] else []) ++
      [Event.sleep]

/-- A full run of `main` (main.py lines 17-46): some number of completed
loop iterations, then the prefix of the iteration that the interrupt (or an
unhandled exception) cut short, then the `finally` block, which closes the
audio gateway and the vision gateway once each. -/
def runTrace (obstacle_classes : List Int) (iters : List Env) (pre : List Event) :
    List Event :=
  (iters.map (iterationTrace obstacle_classes)).flatten ++ pre ++
    [Event.closeAudio, Event.closeVision]

/-- A recognizer whose `AcceptWaveform` call always raises. -/
def recognizerRaising : RecognizerModel :=
  ⟨fun _ => PyResult.exn, PyResult.exn⟩

/-- An iteration environment in which every recoverable external call fails:
the stream read raises, the recognizer raises, and inference raises; the
camera still delivers a frame so the whole loop body runs. -/
def envAllFailing : Env :=
  ⟨PyResult.exn, recognizerRaising, true, PyResult.exn⟩

/-- An iteration environment whose frame capture fails (`cap.read()` returns
`ret = False`), with the other collaborators also inert. -/
def envNullFrame : Env :=
  ⟨PyResult.exn, recognizerRaising, false, PyResult.exn⟩

/-- The scripted end-to-end scenario: the recognizer finalizes the text
`"hello"`, the camera delivers a frame, and inference reports one detection
of class `2` with score `0.9`. -/
def envScenario : Env :=
  ⟨PyResult.ok [1], ⟨fun _ => PyResult.ok true, PyResult.ok (some "hello")⟩, true,
    PyResult.ok ⟨[[1/10, 2/10, 3/10, 4/10]], [2], [9/10]⟩⟩

/-- Recognizes the `speakCall` events of a trace. -/
def isSpeakCall : Event → Bool
  | Event.speakCall _ => true
  | _ => false

/-! ## Helper lemmas -/

theorem pyMem_eq_true (v : Option Int) (xs : List Int) :
    pyMem v xs = true ↔ ∃ c, v = some c ∧ c ∈ xs := by
  cases v with
  | none => simp [pyMem]
  | some c => simp [pyMem]

theorem process_inputs_eq_ite (obs : List Int) (t : String) (dets : List Detection) :
    process_inputs obs t dets =
      if ∃ d ∈ dets, ∃ c, d.cls = some c ∧ c ∈ obs then "Warning: Obstacle ahead!" else "" := by
  unfold process_inputs
  by_cases h : ∃ d ∈ dets, ∃ c, d.cls = some c ∧ c ∈ obs
  · obtain ⟨d, hd, hc⟩ := h
    have hany : (dets.any fun detection => pyMem detection.cls obs) = true :=
      List.any_eq_true.2 ⟨d, hd, (pyMem_eq_true _ _).2 hc⟩
    simp only [hany, if_true]
    rw [if_pos ⟨d, hd, hc⟩]
  · have hany : (dets.any fun detection => pyMem detection.cls obs) = false := by
      rw [Bool.eq_false_iff]
      intro hc
      obtain ⟨d, hd, hp⟩ := List.any_eq_true.1 hc
      exact h ⟨d, hd, (pyMem_eq_true _ _).1 hp⟩
    simp only [hany, Bool.false_eq_true, if_false]
    rw [if_neg h]

/-! ## Claims about the decision engine -/

/-- C1: for every recognized-text string and every well-formed detection list,
`process_inputs` returns exactly `"Warning: Obstacle ahead!"` iff some
detection's `'class'` value belongs to the configured obstacle class list,
and otherwise returns the empty string. -/
theorem process_inputs_warning_iff (obs : List Int) (t : String) (dets : List Detection)
    (hwf : ∀ d ∈ dets, (Detection.cls d).isSome = true) :
    (process_inputs obs t dets = "Warning: Obstacle ahead!" ↔
      ∃ d ∈ dets, ∃ c, d.cls = some c ∧ c ∈ obs) ∧
    (¬(∃ d ∈ dets, ∃ c, d.cls = some c ∧ c ∈ obs) → process_inputs obs t dets = "") := by
  rw [process_inputs_eq_ite]
  by_cases h : ∃ d ∈ dets, ∃ c, d.cls = some c ∧ c ∈ obs
  · rw [if_pos h]
    exact ⟨⟨fun _ => h, fun _ => rfl⟩, fun hn => absurd h hn⟩
  · rw [if_neg h]
    refine ⟨⟨fun he => absurd he (by decide), fun hc => absurd hc h⟩, fun _ => rfl⟩

/-- Witness for C1 at a concrete input: obstacle list `[1,2,3]`, one
detection of class `2`. -/
theorem process_inputs_warning_iff_witness :
    process_inputs [1, 2, 3] "x" [⟨[], some 2, 1⟩] = "Warning: Obstacle ahead!" :=
  (process_inputs_warning_iff [1, 2, 3] "x" [⟨[], some 2, 1⟩] (by decide)).1.mpr
    ⟨⟨[], some 2, 1⟩, by simp, 2, rfl, by decide⟩

/-- C2: `process_inputs` is invariant under permutation of the detection
list and under the recognized text: the text never changes the output. -/
theorem process_inputs_invariant (obs : List Int) (t t1 t2 : String)
    (d d' : List Detection) (hperm : d.Perm d') :
    process_inputs obs t d = process_inputs obs t d' ∧
    process_inputs obs t1 d = process_inputs obs t2 d := by
  refine ⟨?_, rfl⟩
  unfold process_inputs
  have hany : (d.any fun detection => pyMem detection.cls obs) =
      (d'.any fun detection => pyMem detection.cls obs) := by
    apply Bool.eq_iff_iff.2
    simp only [List.any_eq_true]
    exact ⟨fun ⟨x, hx, hp⟩ => ⟨x, hperm.mem_iff.1 hx, hp⟩,
      fun ⟨x, hx, hp⟩ => ⟨x, hperm.mem_iff.2 hx, hp⟩⟩
  rw [hany]

/-- Witness for C2 at a concrete input: swapping a two-element detection
list, and two different texts on the same list. -/
theorem process_inputs_invariant_witness :
    process_inputs [1, 2, 3] "a" [⟨[], some 1, 1⟩, ⟨[], some 5, 1⟩] =
      process_inputs [1, 2, 3] "a" [⟨[], some 5, 1⟩, ⟨[], some 1, 1⟩] ∧
    process_inputs [1, 2, 3] "b" [⟨[], some 1, 1⟩, ⟨[], some 5, 1⟩] =
      process_inputs [1, 2, 3] "c" [⟨[], some 1, 1⟩, ⟨[], some 5, 1⟩] :=
  process_inputs_invariant [1, 2, 3] "a" "b" "c" _ _ (List.Perm.swap _ _ _)

/-- C6: a malformed detection record (missing `'class'` key, modelled as
`cls = none`) never raises and is treated as non-matching: consing it onto
any detection list leaves the output unchanged, and on its own it yields no
warning. -/
theorem process_inputs_malformed (obs : List Int) (t : String) (dets : List Detection)
    (d : Detection) (hmal : d.cls = none) :
    process_inputs obs t (d :: dets) = process_inputs obs t dets ∧
    process_inputs obs t [d] = "" := by
  unfold process_inputs
  simp [List.any_cons, pyMem, hmal]

/-- Witness for C6 at a concrete input: a record with no class key consed
onto a one-element list. -/
theorem process_inputs_malformed_witness :
    process_inputs [1, 2, 3] "t" [⟨[], none, 1⟩, ⟨[], some 5, 1⟩] =
      process_inputs [1, 2, 3] "t" [⟨[], some 5, 1⟩] ∧
    process_inputs [1, 2, 3] "t" [⟨[], none, 1⟩] = "" :=
  process_inputs_malformed [1, 2, 3] "t" [⟨[], some 5, 1⟩] ⟨[], none, 1⟩ rfl

/-! ## Claims about the audio gateway -/

/-- C7: `process_stt` on an empty chunk returns the empty string at once,
and the second component `false` records that `AcceptWaveform` was never
invoked. -/
theorem process_stt_empty_chunk (rec : RecognizerModel) :
    process_stt rec [] = ("", false) := rfl

/-! ## Claims about the vision gateway's detection filter -/

theorem detectLoop_eq_spec (boxes : List (List Rat)) (classes : List Rat) (th : Rat)
    (s : List Rat) : ∀ i : Nat,
    (∀ p ∈ s.enumFrom i, th ≤ p.2 → p.1 < boxes.length ∧ p.1 < classes.length) →
    detectLoop boxes classes th s i = some (detectionsSpec boxes classes th s i) := by
  induction s with
  | nil => intro i _; rfl
  | cons a rest ih =>
    intro i h
    have hcons : (a :: rest).enumFrom i = (i, a) :: rest.enumFrom (i + 1) := rfl
    have htail : ∀ p ∈ rest.enumFrom (i + 1),
        th ≤ p.2 → p.1 < boxes.length ∧ p.1 < classes.length := by
      intro p hp hth
      exact h p (hcons ▸ List.mem_cons_of_mem _ hp) hth
    by_cases hs : th ≤ a
    · obtain ⟨hb, hc⟩ := h (i, a) (hcons ▸ List.mem_cons_self _ _) hs
      have hbv : boxes.get? i = some (boxes.getD i []) := by
        simp [List.getD, List.getElem?_eq_getElem hb]
      have hcv : classes.get? i = some (classes.getD i 0) := by
        simp [List.getD, List.getElem?_eq_getElem hc]
      simp only [detectLoop, if_pos hs, hbv, hcv, ih (i + 1) htail, detectionsSpec, hcons,
        List.filterMap_cons]
    · simp only [detectLoop, if_neg hs, ih (i + 1) htail, detectionsSpec, hcons,
        List.filterMap_cons, if_neg hs]

theorem detectionsSpec_map_score (boxes : List (List Rat)) (classes : List Rat) (th : Rat)
    (s : List Rat) : ∀ i : Nat,
    (detectionsSpec boxes classes th s i).map Detection.score = s.filter (fun x => th ≤ x) := by
  induction s with
  | nil => intro i; rfl
  | cons a rest ih =>
    intro i
    have hcons : (a :: rest).enumFrom i = (i, a) :: rest.enumFrom (i + 1) := rfl
    by_cases hs : th ≤ a <;>
      simp [detectionsSpec, hcons, List.filterMap_cons, hs, ← ih (i + 1), detectionsSpec]

/-- C4: for well-formed (equal-length) parallel inference outputs,
`detect_objects` keeps exactly the entries whose score is at least the
threshold: every returned detection's score passes, and the returned scores
are precisely the passing entries of `detection_scores` (one per passing
index, in order). -/
theorem detect_objects_filters_by_score (outputs : InferenceOutputs) (th : Rat)
    (hb : outputs.detection_boxes.length = outputs.detection_scores.length)
    (hc : outputs.detection_classes.length = outputs.detection_scores.length) :
    (∀ d ∈ detect_objects (PyResult.ok outputs) th, th ≤ d.score) ∧
    (detect_objects (PyResult.ok outputs) th).map Detection.score =
      outputs.detection_scores.filter (fun x => th ≤ x) := by
  have hbound : ∀ p ∈ outputs.detection_scores.enumFrom 0, th ≤ p.2 →
      p.1 < outputs.detection_boxes.length ∧ p.1 < outputs.detection_classes.length := by
    rw [List.forall_mem_enumFrom]
    intro i hi _
    omega
  have heq : detect_objects (PyResult.ok outputs) th =
      detectionsSpec outputs.detection_boxes outputs.detection_classes th
        outputs.detection_scores 0 := by
    have hredex : detect_objects (PyResult.ok outputs) th =
        (match detectLoop outputs.detection_boxes outputs.detection_classes th
            outputs.detection_scores 0 with
          | some ds => ds
          | none => []) := rfl
    rw [hredex, detectLoop_eq_spec _ _ _ _ 0 hbound]
  have hmap := detectionsSpec_map_score outputs.detection_boxes outputs.detection_classes th
    outputs.detection_scores 0
  refine ⟨?_, by rw [heq]; exact hmap⟩
  intro d hd
  have hmem : d.score ∈ (detect_objects (PyResult.ok outputs) th).map Detection.score :=
    List.mem_map_of_mem _ hd
  rw [heq, hmap] at hmem
  exact of_decide_eq_true (List.mem_filter.1 hmem).2

/-- Witness for C4 at a concrete input: scores `[3/4, 1/4]` against the
default threshold `1/2` keep exactly the first entry. -/
theorem detect_objects_filters_by_score_witness :
    (∀ d ∈ detect_objects (PyResult.ok ⟨[[1], [2]], [7, 9], [3/4, 1/4]⟩) (1/2), (1:Rat)/2 ≤ d.score) ∧
    (detect_objects (PyResult.ok ⟨[[1], [2]], [7, 9], [3/4, 1/4]⟩) (1/2)).map Detection.score =
      [(3:Rat)/4, 1/4].filter (fun x => (1:Rat)/2 ≤ x) :=
  detect_objects_filters_by_score ⟨[[1], [2]], [7, 9], [3/4, 1/4]⟩ (1/2) rfl rfl

/-- C10: for well-formed (equal-length) parallel inference outputs,
`detect_objects` returns the detections in increasing index order, with
`box`, `class` and `score` taken from the same index of
`detection_boxes`, `detection_classes` (coerced to an integer) and
`detection_scores` — exactly the index-ordered filtered list
`detectionsSpec`. -/
theorem detect_objects_index_order (outputs : InferenceOutputs) (th : Rat)
    (hb : outputs.detection_boxes.length = outputs.detection_scores.length)
    (hc : outputs.detection_classes.length = outputs.detection_scores.length) :
    detect_objects (PyResult.ok outputs) th =
      detectionsSpec outputs.detection_boxes outputs.detection_classes th
        outputs.detection_scores 0 := by
  have hbound : ∀ p ∈ outputs.detection_scores.enumFrom 0, th ≤ p.2 →
      p.1 < outputs.detection_boxes.length ∧ p.1 < outputs.detection_classes.length := by
    rw [List.forall_mem_enumFrom]
    intro i hi _
    omega
  have hredex : detect_objects (PyResult.ok outputs) th =
      (match detectLoop outputs.detection_boxes outputs.detection_classes th
          outputs.detection_scores 0 with
        | some ds => ds
        | none => []) := rfl
  rw [hredex, detectLoop_eq_spec _ _ _ _ 0 hbound]

/-- Witness for C10 at a concrete input: two passing scores out of three,
returned in index order with fields drawn from matching indices. -/
theorem detect_objects_index_order_witness :
    detect_objects (PyResult.ok ⟨[[1], [2], [3]], [4, 5, 6], [9/10, 1/10, 1/2]⟩) (1/2) =
      detectionsSpec [[1], [2], [3]] [4, 5, 6] (1/2) [9/10, 1/10, 1/2] 0 :=
  detect_objects_index_order ⟨[[1], [2], [3]], [4, 5, 6], [9/10, 1/10, 1/2]⟩ (1/2) rfl rfl

/-! ## Claims about the main loop -/

/-- C3 (counterexample to the claim as stated): on a missed frame the loop
does NOT sleep — `continue` jumps over `time.sleep(0.1)` — whereas a normal
iteration does end with the 100 ms sleep.  So the fixed post-iteration delay
does not elapse "exactly as in a normal iteration" after a null frame. -/
theorem iterationTrace_null_frame_skips_sleep :
    Event.sleep ∉ iterationTrace [1, 2, 3] envNullFrame ∧
    Event.sleep ∈ iterationTrace [1, 2, 3] envAllFailing := by decide

/-- C3 (amended): in the Running state, when frame capture returns null the
loop skips the rest of that iteration's vision and decision work AND the
fixed 100 ms post-iteration delay, proceeding immediately to the next
capture: the iteration's trace is exactly capture-audio, STT,
capture-frame. -/
theorem iterationTrace_null_frame (obs : List Int) (env : Env)
    (h : env.camRet = false) :
    iterationTrace obs env = [Event.captureAudio, Event.stt, Event.captureFrame] := by
  unfold iterationTrace
  rw [h]
  rfl

/-- Witness for the amended C3 at a concrete input. -/
theorem iterationTrace_null_frame_witness :
    iterationTrace [1, 2, 3] envNullFrame =
      [Event.captureAudio, Event.stt, Event.captureFrame] :=
  iterationTrace_null_frame [1, 2, 3] envNullFrame rfl

/-- C5: every per-iteration gateway operation is total and yields its
documented neutral value on a recoverable failure — empty bytes from a
failed stream read, the empty string from a raising recognizer, a null
frame from `ret = False`, an empty detection list from a raising inference
call, and nothing spoken from a raising (or empty-text) synthesis call —
and an iteration in which every external call fails still runs to
completion, ending with its sleep. -/
theorem gateway_neutral_values :
    capture_audio PyResult.exn = [] ∧
    (∀ data : List Nat, (process_stt recognizerRaising data).1 = "") ∧
    (∀ f : Unit, capture_frame false f = none) ∧
    (∀ th : Rat, detect_objects PyResult.exn th = []) ∧
    (∀ t : String, speak t PyResult.exn = []) ∧
    (∀ o : PyResult Unit, speak "" o = []) ∧
    (∀ obs : List Int, iterationTrace obs envAllFailing =
      [Event.captureAudio, Event.stt, Event.captureFrame, Event.detect, Event.sleep]) := by
  refine ⟨rfl, ?_, fun _ => rfl, fun _ => rfl, ?_, fun _ => rfl, fun _ => rfl⟩
  · intro data
    cases data <;> rfl
  · intro t
    unfold speak
    by_cases ht : t = "" <;> simp [ht]

/-- C9: in the scripted end-to-end scenario (recognized text `"hello"`,
one detection of class 2 with score 0.9), the iteration calls `speak`
exactly once, with exactly `"Warning: Obstacle ahead!"`, and never with the
recognized text. -/
theorem iteration_scenario_speak_once :
    (process_stt envScenario.recognizer (capture_audio envScenario.streamRead)).1 = "hello" ∧
    detect_objects envScenario.inference (1 / 2) =
      [⟨[1/10, 2/10, 3/10, 4/10], some 2, 9/10⟩] ∧
    (iterationTrace [1, 2, 3] envScenario).countP isSpeakCall = 1 ∧
    (iterationTrace [1, 2, 3] envScenario).count
      (Event.speakCall "Warning: Obstacle ahead!") = 1 ∧
    Event.speakCall "hello" ∉ iterationTrace [1, 2, 3] envScenario := by
  have hstt : (process_stt envScenario.recognizer (capture_audio envScenario.streamRead)).1 =
      "hello" := rfl
  have hle : (1 : Rat) / 2 ≤ 9 / 10 := by norm_num
  have hdet : detect_objects envScenario.inference (1 / 2) =
      [⟨[1/10, 2/10, 3/10, 4/10], some 2, 9/10⟩] := by
    have hloop : detectLoop [[1/10, 2/10, 3/10, 4/10]] [2] (1 / 2) [9/10] 0 =
        some [⟨[1/10, 2/10, 3/10, 4/10], some (pyInt 2), 9/10⟩] := by
      unfold detectLoop
      rw [if_pos hle]
      rfl
    have hredex : detect_objects envScenario.inference (1 / 2) =
        (match detectLoop [[1/10, 2/10, 3/10, 4/10]] [2] (1 / 2) [9/10] 0 with
          | some ds => ds
          | none => []) := rfl
    rw [hredex, hloop]
    have hint : pyInt 2 = 2 := by
      unfold pyInt
      rw [if_pos (by norm_num)]
      norm_num
    rw [hint]
  have hwarn : process_inputs [1, 2, 3] "hello"
      [⟨[1/10, 2/10, 3/10, 4/10], some 2, 9/10⟩] = "Warning: Obstacle ahead!" := rfl
  have htrace : iterationTrace [1, 2, 3] envScenario =
      [Event.captureAudio, Event.stt, Event.captureFrame, Event.detect,
        Event.speakCall "Warning: Obstacle ahead!", Event.sleep] := by
    have hframe : capture_frame envScenario.camRet () = some () := rfl
    simp only [iterationTrace, hframe, hstt, hdet, hwarn]
    rw [if_pos (by decide : ("Warning: Obstacle ahead!" : String) ≠ "")]
    rfl
  refine ⟨hstt, hdet, ?_, ?_, ?_⟩ <;> rw [htrace] <;> decide

theorem closes_not_mem_iterationTrace (obs : List Int) (env : Env) (e : Event)
    (he : e = Event.closeAudio ∨ e = Event.closeVision) :
    e ∉ iterationTrace obs env := by
  unfold iterationTrace
  cases capture_frame env.camRet () with
  | none => rcases he with rfl | rfl <;> simp
  | some u =>
    rcases he with rfl | rfl <;> · split <;> simp

/-- C8: after an interrupt (or unhandled exception) that cuts the running
loop at any point — after any number of completed iterations plus any
prefix of a further iteration — the `finally` block runs and the full trace
contains exactly one `closeAudio` and exactly one `closeVision` event. -/
theorem runTrace_closes_once (obs : List Int) (iters : List Env) (pre : List Event)
    (env : Env) (h : pre <+: iterationTrace obs env) :
    (runTrace obs iters pre).count Event.closeAudio = 1 ∧
    (runTrace obs iters pre).count Event.closeVision = 1 := by
  obtain ⟨tail, htail⟩ := h
  have hpre : ∀ e, (e = Event.closeAudio ∨ e = Event.closeVision) → e ∉ pre := by
    intro e he hm
    exact closes_not_mem_iterationTrace obs env e he (htail ▸ List.mem_append_left _ hm)
  have hflat : ∀ e, (e = Event.closeAudio ∨ e = Event.closeVision) →
      e ∉ (iters.map (iterationTrace obs)).flatten := by
    intro e he hm
    obtain ⟨l, hl, hel⟩ := List.mem_flatten.1 hm
    obtain ⟨env', _, rfl⟩ := List.mem_map.1 hl
    exact closes_not_mem_iterationTrace obs env' e he hel
  unfold runTrace
  rw [List.count_append, List.count_append, List.count_append, List.count_append]
  constructor
  · rw [List.count_eq_zero.2 (hflat _ (Or.inl rfl)), List.count_eq_zero.2 (hpre _ (Or.inl rfl))]
    decide
  · rw [List.count_eq_zero.2 (hflat _ (Or.inr rfl)), List.count_eq_zero.2 (hpre _ (Or.inr rfl))]
    decide

/-- Witness for C8 at a concrete input: an interrupt arriving before the
first event of the first iteration. -/
theorem runTrace_closes_once_witness :
    (runTrace [1, 2, 3] [] []).count Event.closeAudio = 1 ∧
    (runTrace [1, 2, 3] [] []).count Event.closeVision = 1 :=
  runTrace_closes_once [1, 2, 3] [] [] envAllFailing ⟨_, rfl⟩

/-- Witness for C7 at a concrete recognizer. -/
theorem process_stt_empty_chunk_witness :
    process_stt recognizerRaising [] = ("", false) :=
  process_stt_empty_chunk recognizerRaising
